import Mathlib

/-!
Verification of the `sulid` crate: a 128-bit lexicographically sortable
identifier (SULID) that packs a 48-bit millisecond timestamp, a 70-bit
random field, a 5-bit data-center id and a 5-bit machine id.

The definitions below are a shallow embedding of `src/sulid.rs` and
`src/generator.rs`.  Machine integers (`u128`, `u64`, `u16`, `u8`) are
embedded as `Nat`; theorems carry explicit range hypotheses
(`val < 2 ^ 128`, `d < 256`, ...) where the machine-width bound matters.
A Rust `panic!`/`assert!` failure is embedded as `Option.none`.
-/

/-- `bitmask!($len)` from `src/sulid.rs`: a right-aligned bitmask of `len`
bits, `((1u128 << len) - 1)`.  The casts to `u64`/`u8` in the source are
lossless for the widths used (48 and 5 bits). -/
def bitmask (len : Nat) : Nat := (1 <<< len) - 1

/-- `pub struct Sulid(Ulid)` — a newtype over the raw `u128`.
`val` is the wrapped 128-bit integer (`self.0 .0` in the source). -/
structure Sulid where
  val : Nat
deriving DecidableEq

/-- `Sulid::TIME_BITS`. -/
def Sulid.TIME_BITS : Nat := 48

/-- `Sulid::RAND_BITS`. -/
def Sulid.RAND_BITS : Nat := 70

/-- `Sulid::DATA_CENTER_BITS`. -/
def Sulid.DATA_CENTER_BITS : Nat := 5

/-- `Sulid::MACHINE_BITS`. -/
def Sulid.MACHINE_BITS : Nat := 5

/-- `Sulid::from_u128`. -/
def Sulid.from_u128 (u : Nat) : Sulid := ⟨u⟩

/-- `Sulid::u128`. -/
def Sulid.u128 (s : Sulid) : Nat := s.val

/-- `Sulid::from_parts` (default build: the `assert` feature is off, so the
strict-mode assertions are compiled out and each field is masked to its
declared width and OR-packed). -/
def Sulid.from_parts (timestamp_ms random data_center_id machine_id : Nat) : Sulid :=
  let bitmask_timestamp_ms := bitmask Sulid.TIME_BITS
  let bitmask_random := bitmask Sulid.RAND_BITS
  let bitmask_data_center_id := bitmask Sulid.DATA_CENTER_BITS
  let bitmask_machine_id := bitmask Sulid.MACHINE_BITS
  let time_part := timestamp_ms &&& bitmask_timestamp_ms
  let rand_part := random &&& bitmask_random
  let data_center_part := data_center_id &&& bitmask_data_center_id
  let machine_part := machine_id &&& bitmask_machine_id
  ⟨(time_part <<< (Sulid.RAND_BITS + Sulid.DATA_CENTER_BITS + Sulid.MACHINE_BITS))
      ||| (rand_part <<< (Sulid.DATA_CENTER_BITS + Sulid.MACHINE_BITS))
      ||| (data_center_part <<< Sulid.MACHINE_BITS)
      ||| machine_part⟩

/-- `Sulid::timestamp_ms`: `(self.0 .0 >> 80) as u64` (the cast is lossless
because a `u128` shifted right by 80 fits in 48 bits). -/
def Sulid.timestamp_ms (s : Sulid) : Nat :=
  s.val >>> (Sulid.RAND_BITS + Sulid.DATA_CENTER_BITS + Sulid.MACHINE_BITS)

/-- `Sulid::random`: `(self.0 .0 >> 10) & bitmask!(70)`. -/
def Sulid.random (s : Sulid) : Nat :=
  (s.val >>> (Sulid.DATA_CENTER_BITS + Sulid.MACHINE_BITS)) &&& bitmask Sulid.RAND_BITS

/-- `Sulid::data_center_id`: `((self.0 .0 >> 5) & bitmask!(5)) as u8`. -/
def Sulid.data_center_id (s : Sulid) : Nat :=
  (s.val >>> Sulid.MACHINE_BITS) &&& bitmask Sulid.DATA_CENTER_BITS

/-- `Sulid::machine_id`: `(self.0 .0 & bitmask!(5)) as u8`. -/
def Sulid.machine_id (s : Sulid) : Nat :=
  s.val &&& bitmask Sulid.MACHINE_BITS

/-- `Sulid::nil`: all 128 bits zero. -/
def Sulid.nil : Sulid := ⟨0⟩

/-- `Sulid::is_nil` (delegates to `Ulid::is_nil`, i.e. `self.0 == 0`). -/
def Sulid.is_nil (s : Sulid) : Bool := s.val == 0

/-- `impl Default for Sulid { fn default() -> Self { Sulid::nil() } }`. -/
instance : Inhabited Sulid := ⟨Sulid.nil⟩

/-- `Sulid::increment`: if the 70-bit random field is saturated return
`None`, otherwise add `1 << 10` to the raw value.  The `u128` addition
cannot overflow (proved in `Sulid.claim_C7_increment_strictly_greater`). -/
def Sulid.increment (s : Sulid) : Option Sulid :=
  if ((s.val >>> (Sulid.DATA_CENTER_BITS + Sulid.MACHINE_BITS)) &&& bitmask Sulid.RAND_BITS)
      = bitmask Sulid.RAND_BITS then
    none
  else
    some ⟨s.val + (1 <<< (Sulid.DATA_CENTER_BITS + Sulid.MACHINE_BITS))⟩

/-- `impl From<(u64, u128, u8, u8)> for Sulid`. -/
def Sulid.fromTuple (p : Nat × Nat × Nat × Nat) : Sulid :=
  Sulid.from_parts p.1 p.2.1 p.2.2.1 p.2.2.2

/-- `impl From<Sulid> for (u64, u128, u8, u8)`. -/
def Sulid.toTuple (s : Sulid) : Nat × Nat × Nat × Nat :=
  (s.timestamp_ms, s.random, s.data_center_id, s.machine_id)

/-- `Sulid::from_datetime_with_source`.  The `SystemTime` argument is
embedded as `datetime_ms : Int`, its signed distance in milliseconds from
the Unix epoch; `datetime.duration_since(UNIX_EPOCH).unwrap_or(Duration::ZERO)`
is `Err` (hence `Duration::ZERO`) exactly when the time is before the
epoch, so `as_millis` yields `(max datetime_ms 0).toNat`.  The random
draw `source.gen::<u128>()` is embedded as the `Nat` argument `source`. -/
def Sulid.from_datetime_with_source (datetime_ms : Int) (source : Nat)
    (data_center_id machine_id : Nat) : Sulid :=
  let timestamp : Nat := (max datetime_ms 0).toNat
  let timebits := timestamp &&& bitmask Sulid.TIME_BITS
  let randbits := source &&& bitmask Sulid.RAND_BITS
  Sulid.from_parts timebits randbits data_center_id machine_id

/-- `enum Version` from `src/generator.rs`. -/
inductive Version where
  | V1 (data_center_id machine_id : Nat) : Version
  | V2 (worker_id : Nat) : Version
deriving DecidableEq

/-- `pub struct SulidGenerator(Version)` (we embed only the version tag;
the `std` wrapper adds an RNG behind a mutex, which carries no data the
claims depend on). -/
structure SulidGenerator where
  version : Version
deriving DecidableEq

/-- `SulidGenerator::v1_new`: asserts `data_center_id < 32` and
`machine_id < 32`; an assertion failure (panic) is embedded as `none`. -/
def SulidGenerator.v1_new (data_center_id machine_id : Nat) : Option SulidGenerator :=
  if data_center_id < 32 then
    if machine_id < 32 then
      some ⟨Version.V1 data_center_id machine_id⟩
    else
      none
  else
    none

/-- `SulidGenerator::v2_new`: the source asserts `worker_id < 32` (even
though the assertion message and the doc comment speak of the range
0-1023); an assertion failure (panic) is embedded as `none`. -/
def SulidGenerator.v2_new (worker_id : Nat) : Option SulidGenerator :=
  if worker_id < 32 then
    some ⟨Version.V2 worker_id⟩
  else
    none

/-! ### Arithmetic reformulations of the bit-level definitions -/

theorem bitmask_eq (len : Nat) : bitmask len = 2 ^ len - 1 := by
  simp [bitmask, Nat.shiftLeft_eq]

theorem or_eq_add {k a b : Nat} (ha : a % 2 ^ k = 0) (hb : b < 2 ^ k) :
    a ||| b = a + b := by
  obtain ⟨c, rfl⟩ := Nat.dvd_of_mod_eq_zero ha
  exact (Nat.mul_add_lt_is_or hb c).symm

theorem Sulid.timestamp_ms_def (s : Sulid) : s.timestamp_ms = s.val / 2 ^ 80 := by
  simp [Sulid.timestamp_ms, Sulid.RAND_BITS, Sulid.DATA_CENTER_BITS, Sulid.MACHINE_BITS,
    Nat.shiftRight_eq_div_pow]

theorem Sulid.random_def (s : Sulid) : s.random = s.val / 2 ^ 10 % 2 ^ 70 := by
  show (s.val >>> 10) &&& bitmask 70 = s.val / 2 ^ 10 % 2 ^ 70
  rw [bitmask_eq, Nat.and_pow_two_sub_one_eq_mod, Nat.shiftRight_eq_div_pow]

theorem Sulid.data_center_id_def (s : Sulid) : s.data_center_id = s.val / 2 ^ 5 % 2 ^ 5 := by
  show (s.val >>> 5) &&& bitmask 5 = s.val / 2 ^ 5 % 2 ^ 5
  rw [bitmask_eq, Nat.and_pow_two_sub_one_eq_mod, Nat.shiftRight_eq_div_pow]

theorem Sulid.machine_id_def (s : Sulid) : s.machine_id = s.val % 2 ^ 5 := by
  show s.val &&& bitmask 5 = s.val % 2 ^ 5
  rw [bitmask_eq, Nat.and_pow_two_sub_one_eq_mod]

theorem Sulid.increment_def (s : Sulid) :
    s.increment =
      if s.val / 2 ^ 10 % 2 ^ 70 = 2 ^ 70 - 1 then none
      else some ⟨s.val + 2 ^ 10⟩ := by
  show (if (s.val >>> 10) &&& bitmask 70 = bitmask 70 then none
      else some (Sulid.mk (s.val + 1 <<< 10))) = _
  rw [bitmask_eq, Nat.and_pow_two_sub_one_eq_mod, Nat.shiftRight_eq_div_pow,
    Nat.shiftLeft_eq]
  norm_num

theorem Sulid.from_parts_val (t r d m : Nat) :
    (Sulid.from_parts t r d m).val =
      (t % 2 ^ 48) * 2 ^ 80 + (r % 2 ^ 70) * 2 ^ 10 + (d % 2 ^ 5) * 2 ^ 5 + m % 2 ^ 5 := by
  show ((t &&& bitmask 48) <<< 80) ||| ((r &&& bitmask 70) <<< 10)
      ||| ((d &&& bitmask 5) <<< 5) ||| (m &&& bitmask 5)
      = (t % 2 ^ 48) * 2 ^ 80 + (r % 2 ^ 70) * 2 ^ 10 + (d % 2 ^ 5) * 2 ^ 5 + m % 2 ^ 5
  rw [bitmask_eq, bitmask_eq, bitmask_eq,
    Nat.and_pow_two_sub_one_eq_mod, Nat.and_pow_two_sub_one_eq_mod,
    Nat.and_pow_two_sub_one_eq_mod, Nat.and_pow_two_sub_one_eq_mod,
    Nat.shiftLeft_eq, Nat.shiftLeft_eq, Nat.shiftLeft_eq]
  have h1 : (t % 2 ^ 48) * 2 ^ 80 ||| (r % 2 ^ 70) * 2 ^ 10
      = (t % 2 ^ 48) * 2 ^ 80 + (r % 2 ^ 70) * 2 ^ 10 :=
    or_eq_add (k := 80) (by omega) (by omega)
  have h2 : (t % 2 ^ 48) * 2 ^ 80 + (r % 2 ^ 70) * 2 ^ 10 ||| (d % 2 ^ 5) * 2 ^ 5
      = (t % 2 ^ 48) * 2 ^ 80 + (r % 2 ^ 70) * 2 ^ 10 + (d % 2 ^ 5) * 2 ^ 5 :=
    or_eq_add (k := 10) (by omega) (by omega)
  have h3 : (t % 2 ^ 48) * 2 ^ 80 + (r % 2 ^ 70) * 2 ^ 10 + (d % 2 ^ 5) * 2 ^ 5 ||| m % 2 ^ 5
      = (t % 2 ^ 48) * 2 ^ 80 + (r % 2 ^ 70) * 2 ^ 10 + (d % 2 ^ 5) * 2 ^ 5 + m % 2 ^ 5 :=
    or_eq_add (k := 5) (by omega) (by omega)
  rw [h1, h2, h3]

theorem Sulid.eq_of_val_eq : ∀ {a b : Sulid}, a.val = b.val → a = b
  | ⟨_⟩, ⟨_⟩, rfl => rfl

theorem Sulid.val_mk (x : Nat) : (Sulid.mk x).val = x := rfl

theorem Sulid.from_u128_val (u : Nat) : (Sulid.from_u128 u).val = u := rfl

/-! ### Claims -/

/-- Claim C10: the default value of the `Sulid` type is the nil
identifier: it equals `nil()`, its 128-bit value is zero, and `is_nil()`
returns `true` on it. -/
theorem claim_C10_default_is_nil :
    (default : Sulid) = Sulid.nil ∧ (default : Sulid).u128 = 0 ∧
      (default : Sulid).is_nil = true :=
  ⟨rfl, rfl, rfl⟩

/-- Claim C9: `SulidGenerator::v1_new(data_center_id, machine_id)` succeeds
for every pair of `u8` arguments in the range 0-31 and panics (embedded as
`none`) exactly when either argument exceeds 31. -/
theorem claim_C9_v1_new_range (d m : Nat) (hd : d < 256) (hm : m < 256) :
    (SulidGenerator.v1_new d m).isSome = true ↔ d ≤ 31 ∧ m ≤ 31 := by
  unfold SulidGenerator.v1_new
  by_cases h1 : d < 32 <;> by_cases h2 : m < 32 <;> simp [h1, h2] <;> omega

theorem claim_C9_witness :
    (31 < 256 ∧ 17 < 256) ∧
      ((SulidGenerator.v1_new 31 17).isSome = true ↔ 31 ≤ 31 ∧ 17 ≤ 31) :=
  ⟨⟨by decide, by decide⟩, claim_C9_v1_new_range 31 17 (by decide) (by decide)⟩

/-- Claim C1 (evaluating the code at the claim's domain): the claim and the
function's own documentation say `v2_new(worker_id)` succeeds for every
`worker_id` in 0-1023, but the source asserts `worker_id < 32`, so
construction with `worker_id = 32` (indeed any value in 32-1023) panics
(embedded as `none`); it succeeds exactly for `worker_id < 32`. -/
theorem claim_C1_v2_new_rejects_32 :
    SulidGenerator.v2_new 32 = none ∧ SulidGenerator.v2_new 1023 = none ∧
      SulidGenerator.v2_new 31 ≠ none ∧
      ∀ w : Nat, (SulidGenerator.v2_new w).isSome = true ↔ w < 32 := by
  refine ⟨by decide, by decide, by decide, ?_⟩
  intro w
  unfold SulidGenerator.v2_new
  by_cases h : w < 32 <;> simp [h]

/-- Claim C8: constructing an identifier from a datetime at or before the
Unix epoch yields a timestamp field of exactly zero (clamped, never
negative, never an error). -/
theorem claim_C8_epoch_clamp (datetime_ms : Int) (h : datetime_ms ≤ 0)
    (source d m : Nat) :
    (Sulid.from_datetime_with_source datetime_ms source d m).timestamp_ms = 0 := by
  show (Sulid.from_parts ((max datetime_ms 0).toNat &&& bitmask Sulid.TIME_BITS)
      (source &&& bitmask Sulid.RAND_BITS) d m).timestamp_ms = 0
  have h0 : (max datetime_ms 0).toNat = 0 := by
    rw [max_eq_right h]
    rfl
  rw [h0, Nat.zero_and, Sulid.timestamp_ms_def, Sulid.from_parts_val]
  omega

theorem claim_C8_witness :
    (-100 : Int) ≤ 0 ∧
      (Sulid.from_datetime_with_source (-100) 987654321 3 4).timestamp_ms = 0 :=
  ⟨by decide, claim_C8_epoch_clamp (-100) (by decide) 987654321 3 4⟩

/-- Claim C4: `from_parts` masks each field to its declared width (48, 70,
5, 5 bits) and packs them at bit offsets 80, 10, 5, 0 of the 128-bit
value; high-order bits beyond each declared width are silently discarded
in the default (non-strict) build, so `data_center_id = 32` yields the
same identifier as `data_center_id = 0`. -/
theorem claim_C4_from_parts_masks_and_packs (t r d m : Nat) :
    (Sulid.from_parts t r d m).u128
        = (t % 2 ^ 48) * 2 ^ 80 + (r % 2 ^ 70) * 2 ^ 10 + (d % 2 ^ 5) * 2 ^ 5 + m % 2 ^ 5
      ∧ Sulid.from_parts t r d m
        = Sulid.from_parts (t % 2 ^ 48) (r % 2 ^ 70) (d % 2 ^ 5) (m % 2 ^ 5)
      ∧ Sulid.from_parts t r 32 m = Sulid.from_parts t r 0 m := by
  refine ⟨Sulid.from_parts_val t r d m, ?_, ?_⟩
  · apply Sulid.eq_of_val_eq
    rw [Sulid.from_parts_val, Sulid.from_parts_val]
    omega
  · apply Sulid.eq_of_val_eq
    rw [Sulid.from_parts_val, Sulid.from_parts_val]
    omega

/-- Claim C5: deconstructing the identifier built from any 128-bit value
into its four parts and reconstructing via `from_parts` yields the value
back exactly. -/
theorem claim_C5_parts_round_trip (v : Nat) (hv : v < 2 ^ 128) :
    Sulid.fromTuple (Sulid.toTuple (Sulid.from_u128 v)) = Sulid.from_u128 v := by
  apply Sulid.eq_of_val_eq
  show (Sulid.from_parts (Sulid.from_u128 v).timestamp_ms (Sulid.from_u128 v).random
      (Sulid.from_u128 v).data_center_id (Sulid.from_u128 v).machine_id).val
    = (Sulid.from_u128 v).val
  rw [Sulid.from_parts_val, Sulid.timestamp_ms_def, Sulid.random_def,
    Sulid.data_center_id_def, Sulid.machine_id_def, Sulid.from_u128_val]
  omega

theorem claim_C5_witness :
    340282366920938463463374607431768211455 < 2 ^ 128 ∧
      Sulid.fromTuple (Sulid.toTuple (Sulid.from_u128 340282366920938463463374607431768211455))
        = Sulid.from_u128 340282366920938463463374607431768211455 :=
  ⟨by decide, claim_C5_parts_round_trip 340282366920938463463374607431768211455 (by decide)⟩

/-- Claim C2: for every `Sulid` whose random field is not all-ones,
`increment` returns a successor whose random field is one larger while the
timestamp bits (high 48) and identity bits (low 10) are bit-for-bit
identical. -/
theorem claim_C2_increment_bit_isolation (s : Sulid) (_hv : s.val < 2 ^ 128)
    (hr : s.random ≠ bitmask Sulid.RAND_BITS) :
    ∃ s', s.increment = some s' ∧ s'.random = s.random + 1 ∧
      s'.timestamp_ms = s.timestamp_ms ∧ s'.data_center_id = s.data_center_id ∧
      s'.machine_id = s.machine_id := by
  rw [Sulid.random_def, bitmask_eq, Sulid.RAND_BITS] at hr
  refine ⟨⟨s.val + 2 ^ 10⟩, ?_, ?_, ?_, ?_, ?_⟩
  · rw [Sulid.increment_def, if_neg hr]
  · rw [Sulid.random_def, Sulid.random_def]
    simp only [Sulid.val_mk]
    omega
  · rw [Sulid.timestamp_ms_def, Sulid.timestamp_ms_def]
    simp only [Sulid.val_mk]
    omega
  · rw [Sulid.data_center_id_def, Sulid.data_center_id_def]
    simp only [Sulid.val_mk]
    omega
  · rw [Sulid.machine_id_def, Sulid.machine_id_def]
    simp only [Sulid.val_mk]
    omega

theorem claim_C2_witness :
    (Sulid.mk 5).val < 2 ^ 128 ∧ (Sulid.mk 5).random ≠ bitmask Sulid.RAND_BITS ∧
      (∃ s', (Sulid.mk 5).increment = some s' ∧ s'.random = (Sulid.mk 5).random + 1 ∧
        s'.timestamp_ms = (Sulid.mk 5).timestamp_ms ∧
        s'.data_center_id = (Sulid.mk 5).data_center_id ∧
        s'.machine_id = (Sulid.mk 5).machine_id) :=
  ⟨by decide, by decide, claim_C2_increment_bit_isolation ⟨5⟩ (by decide) (by decide)⟩

/-- Claim C3: `increment` returns `none` exactly when the 70-bit random
field is saturated (all ones); when it returns a value, the random field
grows by exactly one, so it never wraps around and never fails with an
error. -/
theorem claim_C3_increment_none_iff_saturated (s : Sulid) :
    (s.increment = none ↔ s.random = bitmask Sulid.RAND_BITS) ∧
      ∀ s', s.increment = some s' → s'.random = s.random + 1 := by
  rw [Sulid.increment_def, Sulid.random_def, bitmask_eq, Sulid.RAND_BITS]
  constructor
  · by_cases hc : s.val / 2 ^ 10 % 2 ^ 70 = 2 ^ 70 - 1 <;> simp [hc]
  · intro s' h
    by_cases hc : s.val / 2 ^ 10 % 2 ^ 70 = 2 ^ 70 - 1
    · rw [if_pos hc] at h
      exact absurd h (by simp)
    · rw [if_neg hc] at h
      obtain rfl := Option.some.inj h
      rw [Sulid.random_def]
      simp only [Sulid.val_mk]
      omega

/-- Claim C7: whenever `increment` returns a successor, the successor is
strictly greater under unsigned 128-bit integer ordering, and the 128-bit
addition never overflows. -/
theorem claim_C7_increment_strictly_greater (s : Sulid) (hv : s.val < 2 ^ 128)
    {s' : Sulid} (h : s.increment = some s') :
    s.u128 < s'.u128 ∧ s'.u128 < 2 ^ 128 := by
  rw [Sulid.increment_def] at h
  by_cases hc : s.val / 2 ^ 10 % 2 ^ 70 = 2 ^ 70 - 1
  · rw [if_pos hc] at h
    exact absurd h (by simp)
  · rw [if_neg hc] at h
    obtain rfl := Option.some.inj h
    show s.val < s.val + 2 ^ 10 ∧ s.val + 2 ^ 10 < 2 ^ 128
    omega

theorem claim_C7_witness :
    (Sulid.mk 77).val < 2 ^ 128 ∧
      ((Sulid.mk 77).u128 < (Sulid.mk (77 + 2 ^ 10)).u128 ∧
        (Sulid.mk (77 + 2 ^ 10)).u128 < 2 ^ 128) :=
  ⟨by decide, claim_C7_increment_strictly_greater ⟨77⟩ (by decide) (by decide)⟩

/-! ### Canonical text form (claim C6)

The Base32 text codec itself lives in the external `ulid` crate, outside
this repository's sources, so it is modelled from the spec here. -/

/-- Modelled from the spec: the canonical text form is a fixed-length
26-character Crockford Base32 encoding of the 128-bit value (alphabet
`0123456789ABCDEFGHJKMNPQRSTVWXYZ`, i.e. excluding I, L, O and U), most
significant digit first.  `crockfordCode d` is the ASCII code of the
digit `d`. -/
def crockfordCode (d : Nat) : Nat :=
  [48, 49, 50, 51, 52, 53, 54, 55, 56, 57,
   65, 66, 67, 68, 69, 70, 71, 72, 74, 75,
   77, 78, 80, 81, 82, 83, 84, 86, 87, 88, 89, 90].getD d 0

/-- The `n` base-32 digits of `v`, most significant first. -/
def toDigits : Nat → Nat → List Nat
  | 0, _ => []
  | n + 1, v => v / 32 ^ n % 32 :: toDigits n v

/-- Modelled from the spec: the 26-character canonical text form of an
identifier, as the list of ASCII codes of its characters. -/
def Sulid.encode_text (s : Sulid) : List Nat :=
  (toDigits 26 s.val).map crockfordCode

theorem toDigits_mod (n v : Nat) : toDigits n (v % 32 ^ n) = toDigits n v := by
  induction n generalizing v with
  | zero => rfl
  | succ n ih =>
    simp only [toDigits]
    congr 1
    · rw [pow_succ, Nat.mod_mul_right_div_self]
      omega
    · calc toDigits n (v % 32 ^ (n + 1))
          = toDigits n (v % 32 ^ (n + 1) % 32 ^ n) := (ih _).symm
        _ = toDigits n (v % 32 ^ n) := by
            rw [Nat.mod_mod_of_dvd _ (pow_dvd_pow 32 (Nat.le_succ n))]
        _ = toDigits n v := ih v

theorem toDigits_all_lt (n v : Nat) : ∀ x ∈ toDigits n v, x < 32 := by
  induction n generalizing v with
  | zero =>
    intro x hx
    simp [toDigits] at hx
  | succ n ih =>
    intro x hx
    simp only [toDigits, List.mem_cons] at hx
    rcases hx with rfl | hx
    · exact Nat.mod_lt _ (by norm_num)
    · exact ih v x hx

theorem toDigits_lex_of_lt (n : Nat) :
    ∀ v1 v2, v1 < v2 → v2 < 32 ^ n →
      List.Lex (· < ·) (toDigits n v1) (toDigits n v2) := by
  induction n with
  | zero =>
    intro v1 v2 h1 h2
    rw [pow_zero] at h2
    omega
  | succ n ih =>
    intro v1 v2 h1 h2
    have hq : v1 / 32 ^ n ≤ v2 / 32 ^ n := Nat.div_le_div_right (le_of_lt h1)
    have hv2 : v2 / 32 ^ n < 32 := Nat.div_lt_of_lt_mul (by rw [← pow_succ]; exact h2)
    simp only [toDigits]
    rcases lt_or_eq_of_le hq with hlt | heq
    · apply List.Lex.rel
      rw [Nat.mod_eq_of_lt (lt_of_le_of_lt hq hv2), Nat.mod_eq_of_lt hv2]
      exact hlt
    · rw [heq]
      apply List.Lex.cons
      rw [← toDigits_mod n v1, ← toDigits_mod n v2]
      apply ih
      · have e1 := Nat.div_add_mod v1 (32 ^ n)
        have e2 := Nat.div_add_mod v2 (32 ^ n)
        rw [heq] at e1
        have h3 : 32 ^ n * (v2 / 32 ^ n) + v1 % 32 ^ n
            < 32 ^ n * (v2 / 32 ^ n) + v2 % 32 ^ n := by
          rw [e1, e2]
          exact h1
        exact lt_of_add_lt_add_left h3
      · exact Nat.mod_lt v2 (pow_pos (by norm_num) n)

theorem crockfordCode_mono :
    ∀ a, a < 32 → ∀ b, b < 32 → a < b → crockfordCode a < crockfordCode b := by
  decide

theorem lex_map_crockford : ∀ {l1 l2 : List Nat}, List.Lex (· < ·) l1 l2 →
    (∀ x ∈ l1, x < 32) → (∀ x ∈ l2, x < 32) →
    List.Lex (· < ·) (l1.map crockfordCode) (l2.map crockfordCode)
  | _, _, List.Lex.nil, _, _ => List.Lex.nil
  | _, _, List.Lex.cons h, h1, h2 =>
    List.Lex.cons (lex_map_crockford h
      (fun x hx => h1 x (List.mem_cons_of_mem _ hx))
      (fun x hx => h2 x (List.mem_cons_of_mem _ hx)))
  | _, _, List.Lex.rel h, h1, h2 =>
    List.Lex.rel (crockfordCode_mono _ (h1 _ (List.mem_cons_self _ _)) _
      (h2 _ (List.mem_cons_self _ _)) h)

theorem Sulid.encode_text_lex_of_lt {s1 s2 : Sulid} (h : s1.val < s2.val)
    (hb : s2.val < 2 ^ 128) :
    List.Lex (· < ·) s1.encode_text s2.encode_text := by
  apply lex_map_crockford
  · exact toDigits_lex_of_lt 26 _ _ h (lt_of_lt_of_le hb (by norm_num))
  · exact toDigits_all_lt 26 s1.val
  · exact toDigits_all_lt 26 s2.val

/-- Claim C6: for timestamps `t1 < t2` (48-bit timestamp values) and any
random and identity fields, the identifier built with `t1` is strictly
smaller than the one built with `t2`, both under unsigned 128-bit integer
ordering and under lexicographic ordering of the canonical text form. -/
theorem claim_C6_timestamp_ordering (t1 t2 r1 r2 d1 d2 m1 m2 : Nat)
    (h12 : t1 < t2) (h2 : t2 < 2 ^ 48) :
    (Sulid.from_parts t1 r1 d1 m1).u128 < (Sulid.from_parts t2 r2 d2 m2).u128 ∧
      List.Lex (· < ·) (Sulid.from_parts t1 r1 d1 m1).encode_text
        (Sulid.from_parts t2 r2 d2 m2).encode_text := by
  have hlt : (Sulid.from_parts t1 r1 d1 m1).val < (Sulid.from_parts t2 r2 d2 m2).val := by
    rw [Sulid.from_parts_val, Sulid.from_parts_val]
    omega
  have hb : (Sulid.from_parts t2 r2 d2 m2).val < 2 ^ 128 := by
    rw [Sulid.from_parts_val]
    omega
  exact ⟨hlt, Sulid.encode_text_lex_of_lt hlt hb⟩

theorem claim_C6_witness :
    (3 : Nat) < 5 ∧ (5 : Nat) < 2 ^ 48 ∧
      ((Sulid.from_parts 3 9 1 2).u128 < (Sulid.from_parts 5 0 0 0).u128 ∧
        List.Lex (· < ·) (Sulid.from_parts 3 9 1 2).encode_text
          (Sulid.from_parts 5 0 0 0).encode_text) :=
  ⟨by decide, by decide, claim_C6_timestamp_ordering 3 5 9 0 1 0 2 0 (by decide) (by decide)⟩
